import Mathlib

/-!
Verification of claims about the Sharrnah/fyne repository fragments:
the rectangle fragment shader (internal/painter/gl/shaders/rectangle_es.frag),
the `fyne build` command (package commands), the configurable test theme
(test/theme.go) and the localization helpers (lang/lang.go).

Shader arithmetic is embedded over the rationals; Go strings are embedded as
Lean strings with character-level helpers that mirror the Go standard library
functions used by the source.
-/

namespace FyneSpec

/-! ## Rectangle fragment shader (rectangle_es.frag) -/

/-- A GLSL vec4 value, used for colors. -/
structure Vec4 where
  x : ℚ
  y : ℚ
  z : ℚ
  w : ℚ
deriving DecidableEq, Repr

/-- The uniforms of the rectangle fragment shader.
`frame_size` keeps only its y component (the x, z, w components are unused by
the shader body); `rect_coords` is (x1, x2, y1, y2). -/
structure RectUniforms where
  frame_size_y : ℚ
  x1 : ℚ
  x2 : ℚ
  y1 : ℚ
  y2 : ℚ
  stroke_width : ℚ
  fill_color : Vec4
  stroke_color : Vec4
deriving DecidableEq, Repr

/-- The body of `main` in rectangle_es.frag: the if/else-if chain classifying
a fragment at (gl_FragCoord.x, gl_FragCoord.y) and returning gl_FragColor. -/
def fragMain (u : RectUniforms) (fragX fragY : ℚ) : Vec4 :=
  if fragX ≥ u.x2 - u.stroke_width then u.stroke_color
  else if fragX ≤ u.x1 + u.stroke_width then u.stroke_color
  else if fragY ≤ u.frame_size_y - u.y2 + u.stroke_width then u.stroke_color
  else if fragY ≥ u.frame_size_y - u.y1 - u.stroke_width then u.stroke_color
  else u.fill_color

/-- The classification described by the specification: the fragment's x
coordinate is within stroke_width of the left edge x1 or the right edge x2,
or its y coordinate is within stroke_width of the top or bottom edge after
flipping the vertical axis (y compared against frame_size.y minus the
rectangle's y coordinates). -/
def specStroke (u : RectUniforms) (fragX fragY : ℚ) : Prop :=
  fragX ≤ u.x1 + u.stroke_width ∨ u.x2 - u.stroke_width ≤ fragX ∨
    fragY ≤ (u.frame_size_y - u.y2) + u.stroke_width ∨
    (u.frame_size_y - u.y1) - u.stroke_width ≤ fragY

instance (u : RectUniforms) (fragX fragY : ℚ) : Decidable (specStroke u fragX fragY) := by
  unfold specStroke; infer_instance

/-- The fragment lies inside the rectangle, in GL fragment coordinates: x
between x1 and x2, y between the flipped bottom edge frame_size.y - y2 and the
flipped top edge frame_size.y - y1. -/
def insideRect (u : RectUniforms) (fragX fragY : ℚ) : Prop :=
  u.x1 ≤ fragX ∧ fragX ≤ u.x2 ∧
    u.frame_size_y - u.y2 ≤ fragY ∧ fragY ≤ u.frame_size_y - u.y1

/-- Distance from a fragment to the nearest rectangle edge, measured along the
axes in GL fragment coordinates. -/
def edgeDist (u : RectUniforms) (fragX fragY : ℚ) : ℚ :=
  min (min (fragX - u.x1) (u.x2 - fragX))
    (min (fragY - (u.frame_size_y - u.y2)) ((u.frame_size_y - u.y1) - fragY))

/-- Helper: the shader output is `stroke_color` exactly on `specStroke`, and
`fill_color` elsewhere. -/
theorem fragMain_eq_ite (u : RectUniforms) (fragX fragY : ℚ) :
    fragMain u fragX fragY =
      if specStroke u fragX fragY then u.stroke_color else u.fill_color := by
  unfold fragMain specStroke
  by_cases h1 : fragX ≥ u.x2 - u.stroke_width
  · rw [if_pos h1, if_pos (Or.inr (Or.inl h1))]
  by_cases h2 : fragX ≤ u.x1 + u.stroke_width
  · rw [if_neg h1, if_pos h2, if_pos (Or.inl h2)]
  by_cases h3 : fragY ≤ u.frame_size_y - u.y2 + u.stroke_width
  · rw [if_neg h1, if_neg h2, if_pos h3, if_pos (Or.inr (Or.inr (Or.inl h3)))]
  by_cases h4 : fragY ≥ u.frame_size_y - u.y1 - u.stroke_width
  · rw [if_neg h1, if_neg h2, if_neg h3, if_pos h4,
      if_pos (Or.inr (Or.inr (Or.inr h4)))]
  · rw [if_neg h1, if_neg h2, if_neg h3, if_neg h4, if_neg]
    rintro (h | h | h | h) <;> [exact h2 h; exact h1 h; exact h3 h; exact h4 h]

/-- Helper: the specification classification holds exactly when the distance to
the nearest edge (along the axes) is at most the stroke width. -/
theorem specStroke_iff_edgeDist (u : RectUniforms) (fragX fragY : ℚ) :
    specStroke u fragX fragY ↔ edgeDist u fragX fragY ≤ u.stroke_width := by
  unfold specStroke edgeDist
  rw [min_le_iff, min_le_iff, min_le_iff]
  constructor
  · rintro (h | h | h | h)
    · exact Or.inl (Or.inl (by linarith))
    · exact Or.inl (Or.inr (by linarith))
    · exact Or.inr (Or.inl (by linarith))
    · exact Or.inr (Or.inr (by linarith))
  · rintro ((h | h) | (h | h))
    · exact Or.inl (by linarith)
    · exact Or.inr (Or.inl (by linarith))
    · exact Or.inr (Or.inr (Or.inl (by linarith)))
    · exact Or.inr (Or.inr (Or.inr (by linarith)))

/-- C1: for every fragment coordinate and every setting of the uniforms, the
shader outputs stroke_color exactly when the fragment's x coordinate falls
within stroke_width of the left edge x1 or the right edge x2, or its y
coordinate falls within stroke_width of the top or bottom edge after flipping
the vertical axis (y compared against frame_size.y minus the rect's y
coordinates); otherwise it outputs fill_color. -/
theorem c1_shader_stroke_classification (u : RectUniforms) (fragX fragY : ℚ) :
    fragMain u fragX fragY =
      if specStroke u fragX fragY then u.stroke_color else u.fill_color :=
  fragMain_eq_ite u fragX fragY

/-- C2: for every rectangle with x1 ≤ x2, y1 ≤ y2 and stroke_width ≥ 0, the
fragments inside the rectangle classified stroke-colored are exactly those at
axis-distance at most stroke_width from one of the four edges: the stroke band
is exactly stroke_width device pixels wide on every side (including the
degenerate case stroke_width = 0, where only the boundary itself is stroke). -/
theorem c2_stroke_border_exact (u : RectUniforms) (fragX fragY : ℚ)
    (hx : u.x1 ≤ u.x2) (hy : u.y1 ≤ u.y2) (hsw : 0 ≤ u.stroke_width)
    (hin : insideRect u fragX fragY) :
    fragMain u fragX fragY =
      if edgeDist u fragX fragY ≤ u.stroke_width
      then u.stroke_color else u.fill_color := by
  rw [fragMain_eq_ite]
  by_cases h : specStroke u fragX fragY
  · rw [if_pos h, if_pos ((specStroke_iff_edgeDist u fragX fragY).mp h)]
  · rw [if_neg h, if_neg (fun hd => h ((specStroke_iff_edgeDist u fragX fragY).mpr hd))]

/-- The red and black colors of the C4 scenario, as RGBA vectors. -/
def redColor : Vec4 := ⟨1, 0, 0, 1⟩

/-- Opaque black. -/
def blackColor : Vec4 := ⟨0, 0, 0, 1⟩

/-- The concrete uniforms of the C4 scenario: a 100x50 rectangle at the
origin, stroke_width 2, frame_size (100, 50), red fill, black stroke. -/
def rectC4 : RectUniforms :=
  { frame_size_y := 50, x1 := 0, x2 := 100, y1 := 0, y2 := 50,
    stroke_width := 2, fill_color := redColor, stroke_color := blackColor }

/-- Closed-form witness for C2: at the C4 uniforms, the fragment (50, 25) is
25 device pixels from the nearest edge, so it receives the fill color. -/
theorem c2_stroke_border_exact_witness :
    fragMain rectC4 50 25 = redColor :=
  (c2_stroke_border_exact rectC4 50 25
    (by norm_num [rectC4]) (by norm_num [rectC4]) (by norm_num [rectC4])
    (by refine ⟨?_, ?_, ?_, ?_⟩ <;> norm_num [rectC4])).trans
    (by norm_num [edgeDist, rectC4])

/-- C3: when stroke_width is at least half the smaller rectangle dimension,
every fragment inside the rectangle is stroke-colored; no inside fragment
receives fill_color. -/
theorem c3_full_stroke_when_wide (u : RectUniforms) (fragX fragY : ℚ)
    (hsw : min (u.x2 - u.x1) (u.y2 - u.y1) / 2 ≤ u.stroke_width)
    (hin : insideRect u fragX fragY) :
    fragMain u fragX fragY = u.stroke_color := by
  obtain ⟨h1, h2, h3, h4⟩ := hin
  rw [fragMain_eq_ite, if_pos]
  rw [specStroke_iff_edgeDist]
  unfold edgeDist
  have ha := min_le_left (fragX - u.x1) (u.x2 - fragX)
  have hb := min_le_right (fragX - u.x1) (u.x2 - fragX)
  have hc := min_le_left (fragY - (u.frame_size_y - u.y2))
    (u.frame_size_y - u.y1 - fragY)
  have hd := min_le_right (fragY - (u.frame_size_y - u.y2))
    (u.frame_size_y - u.y1 - fragY)
  have hout1 := min_le_left (min (fragX - u.x1) (u.x2 - fragX))
    (min (fragY - (u.frame_size_y - u.y2)) (u.frame_size_y - u.y1 - fragY))
  have hout2 := min_le_right (min (fragX - u.x1) (u.x2 - fragX))
    (min (fragY - (u.frame_size_y - u.y2)) (u.frame_size_y - u.y1 - fragY))
  rcases le_total (u.x2 - u.x1) (u.y2 - u.y1) with hwh | hwh
  · rw [min_eq_left hwh] at hsw; linarith
  · rw [min_eq_right hwh] at hsw; linarith

/-- Closed-form witness for C3: a 10x10 rectangle with stroke width 5 is
entirely stroke-colored, here at the center fragment (5, 5). -/
theorem c3_full_stroke_when_wide_witness :
    fragMain ⟨10, 0, 10, 0, 10, 5, redColor, blackColor⟩ 5 5 = blackColor :=
  c3_full_stroke_when_wide ⟨10, 0, 10, 0, 10, 5, redColor, blackColor⟩ 5 5
    (by norm_num) (by refine ⟨?_, ?_, ?_, ?_⟩ <;> norm_num)

/-- C4: at the concrete uniforms rectC4 (100x50 rectangle at the origin,
stroke_width 2, frame_size (100, 50), red fill, black stroke), every fragment
inside the rectangle within 2 device pixels of one of the four edges is black
and every fragment farther than 2 pixels from all edges is red. -/
theorem c4_concrete_rectangle (fragX fragY : ℚ)
    (hx0 : 0 ≤ fragX) (hx1 : fragX ≤ 100) (hy0 : 0 ≤ fragY) (hy1 : fragY ≤ 50) :
    fragMain rectC4 fragX fragY =
      if edgeDist rectC4 fragX fragY ≤ 2 then blackColor else redColor := by
  rw [fragMain_eq_ite]
  have hiff := specStroke_iff_edgeDist rectC4 fragX fragY
  by_cases h : specStroke rectC4 fragX fragY
  · rw [if_pos h, if_pos (show edgeDist rectC4 fragX fragY ≤ 2 from hiff.mp h)]
    rfl
  · rw [if_neg h, if_neg (show ¬edgeDist rectC4 fragX fragY ≤ 2 from
      fun hd => h (hiff.mpr hd))]
    rfl

/-- Closed-form witness for C4: the fragment (1, 25) lies 1 pixel from the
left edge and is black; the fragment (50, 25) lies 25 pixels from every edge
and is red. -/
theorem c4_concrete_rectangle_witness :
    fragMain rectC4 1 25 = blackColor ∧ fragMain rectC4 50 25 = redColor :=
  ⟨(c4_concrete_rectangle 1 25 (by norm_num) (by norm_num) (by norm_num)
      (by norm_num)).trans (by norm_num [edgeDist, rectC4]),
    (c4_concrete_rectangle 50 25 (by norm_num) (by norm_num) (by norm_num)
      (by norm_num)).trans (by norm_num [edgeDist, rectC4])⟩

/-! ## The fyne build command (package commands, Builder) -/

/-- Go strings.Split with a one-character separator, on the character list:
splits at every occurrence of the separator and keeps empty fields. -/
def goSplitAux (sep : Char) : List Char → List Char → List (List Char)
  | [], acc => [acc.reverse]
  | c :: rest, acc =>
    if c = sep then acc.reverse :: goSplitAux sep rest []
    else goSplitAux sep rest (c :: acc)

/-- Go strings.Split(s, sep) for a one-character separator sep: the empty
string yields [""], and separators at the ends yield empty fields. -/
def goSplit (sep : Char) (s : String) : List String :=
  (goSplitAux sep s.data []).map List.asString

/-- Go strings.Join(xs, ",") -/
def joinComma : List String → String
  | [] => ""
  | [x] => x
  | x :: xs => x ++ "," ++ joinComma xs

/-- The Builder of the build command; the runner field is modelled separately
by the oracle in BuildEnv. -/
structure Builder where
  os : String
  srcdir : String
  target : String
  goPackage : String
  release : Bool
  tags : List String
  tagsToParse : String
deriving DecidableEq, Repr

/-- targetOS(): the GOOS environment variable when set (os.LookupEnv),
otherwise runtime.GOOS. The environment and the host OS are parameters. -/
def targetOS (envGOOS : Option String) (runtimeGOOS : String) : String :=
  match envGOOS with
  | some v => v
  | none => runtimeGOOS

/-- isWeb(goos) -/
def isWeb (goos : String) : Bool := goos == "gopherjs" || goos == "wasm"

/-- The goos used by Builder.build: the --target/os flag when non-empty,
otherwise targetOS(). -/
def Builder.effectiveGOOS (b : Builder) (envGOOS : Option String)
    (runtimeGOOS : String) : String :=
  if b.os = "" then targetOS envGOOS runtimeGOOS else b.os

/-- The -ldflags arguments appended by build() for the given goos and release
flag (nothing for web targets). -/
def ldflagsArgs (goos : String) (release : Bool) : List String :=
  if isWeb goos then []
  else if goos = "windows" then
    if release then ["-ldflags", "-s -w -H=windowsgui"]
    else ["-ldflags", "-H=windowsgui"]
  else if release then ["-ldflags", "-s -w"]
  else []

/-- The tag list after Builder.Build's parsing step: tagsToParse split on
commas when non-empty, the existing tags field otherwise. -/
def Builder.parsedTags (b : Builder) : List String :=
  if b.tagsToParse ≠ "" then goSplit ',' b.tagsToParse else b.tags

/-- The tag list used by build(): the parsed tags, plus "release" when the
release flag is set. -/
def Builder.effectiveTags (b : Builder) : List String :=
  b.parsedTags ++ (if b.release then ["release"] else [])

/-- The tags arguments appended by build(): the flag (--tags for gopherjs,
-tags otherwise) and the comma-joined tag list, only when the list is
non-empty. -/
def tagsArgs (goos : String) (tags : List String) : List String :=
  if tags.length > 0 then
    [if goos = "gopherjs" then "--tags" else "-tags", joinComma tags]
  else []

/-- The full argument list passed to the toolchain runner by build(), in the
order the source appends them. -/
def Builder.buildArgs (b : Builder) (goos : String) : List String :=
  ["build"] ++ ldflagsArgs goos b.release
    ++ (if b.target ≠ "" then ["-o", b.target] else [])
    ++ tagsArgs goos b.effectiveTags
    ++ (if b.goPackage ≠ "" then [b.goPackage] else [])

/-- checkVersion(output, versionConstraint): parse the output of
`go version` and check the extracted version against the constraint.
version.Normalize and ConstraintGroup.Match are oracles. -/
def checkVersion (output : String) (normalize : String → String)
    (constraintMatch : String → Bool) : Except String Unit :=
  let split := goSplit ' ' output
  if split.length ≠ 4 ∨ split.getD 0 "" ≠ "go" ∨ split.getD 1 "" ≠ "version" ∨
      (split.getD 2 "").length < 5 ∨ ((split.getD 2 "").data.take 2).asString ≠ "go"
  then Except.error ("invalid output for go version: " ++ output)
  else
    let normalized :=
      normalize ((((split.getD 2 "").data.drop 2).dropLast.dropLast).asString)
    if constraintMatch normalized then Except.ok ()
    else Except.error ("expected go version constraint got " ++ normalized)

/-- The shape of `go version` output accepted by checkVersion: exactly four
space-separated fields, the first two "go" and "version", the third at least
five characters long and starting with "go". -/
def goVersionShape (output : String) : Prop :=
  (goSplit ' ' output).length = 4 ∧ (goSplit ' ' output).getD 0 "" = "go" ∧
    (goSplit ' ' output).getD 1 "" = "version" ∧
    5 ≤ ((goSplit ' ' output).getD 2 "").length ∧
    (((goSplit ' ' output).getD 2 "").data.take 2).asString = "go"

instance (output : String) : Decidable (goVersionShape output) := by
  unfold goVersionShape; infer_instance

/-- The version string checkVersion feeds to the constraint (before
normalization): the third field with the leading "go" and the final two
characters removed. -/
def checkedVersionString (output : String) : String :=
  ((((goSplit ' ' output).getD 2 "").data.drop 2).dropLast.dropLast).asString

/-- The world Builder.Build runs in: the stat result of srcdir (none = stat
error, some b = whether it is a directory), the GOOS environment variable,
the host runtime.GOOS, the runner's outputs, and the go-version oracles. -/
structure BuildEnv where
  statSrcdir : Option Bool
  envGOOS : Option String
  runtimeGOOS : String
  versionOutput : Except String String
  buildResult : Except String String
  normalize : String → String
  wasmConstraint : String → Bool

/-- Builder.build(): computes goos and the argument list, checks the go
version when the target is wasm, and invokes the runner. Returns the result
together with the trace of runner invocations (their argument lists). -/
def Builder.buildStep (b : Builder) (w : BuildEnv) :
    Except String Unit × List (List String) :=
  let goos := b.effectiveGOOS w.envGOOS w.runtimeGOOS
  let args := b.buildArgs goos
  if goos = "wasm" then
    match w.versionOutput with
    | Except.error e => (Except.error e, [["version"]])
    | Except.ok out =>
      match checkVersion out w.normalize w.wasmConstraint with
      | Except.error e => (Except.error e, [["version"]])
      | Except.ok _ =>
        match w.buildResult with
        | Except.error e => (Except.error e, [["version"], args])
        | Except.ok _ => (Except.ok (), [["version"], args])
  else
    match w.buildResult with
    | Except.error e => (Except.error e, [args])
    | Except.ok _ => (Except.ok (), [args])

/-- Builder.Build(): validates srcdir when non-empty (stat must succeed and
name a directory), parses the tags, and runs build(). Returns the result and
the trace of runner invocations. -/
def Builder.BuildRun (b : Builder) (w : BuildEnv) :
    Except String Unit × List (List String) :=
  if b.srcdir ≠ "" then
    match w.statSrcdir with
    | none => (Except.error "stat error", [])
    | some false =>
      (Except.error "specified source directory is not a valid directory", [])
    | some true => ({ b with tags := b.parsedTags } : Builder).buildStep w
  else ({ b with tags := b.parsedTags } : Builder).buildStep w

/-- Helper: goSplit never returns the empty list. -/
theorem goSplitAux_ne_nil (sep : Char) (l acc : List Char) :
    goSplitAux sep l acc ≠ [] := by
  induction l generalizing acc with
  | nil => simp [goSplitAux]
  | cons c rest ih =>
    unfold goSplitAux
    by_cases h : c = sep
    · rw [if_pos h]; simp
    · rw [if_neg h]; exact ih _

/-- Helper: goSplit never returns the empty list. -/
theorem goSplit_ne_nil (sep : Char) (s : String) : goSplit sep s ≠ [] := by
  unfold goSplit
  intro h
  exact goSplitAux_ne_nil sep s.data [] (List.map_eq_nil_iff.mp h)

/-- Whether an Except value is an error. -/
def isErr : Except String Unit → Bool
  | Except.error _ => true
  | Except.ok _ => false

/-- C5: when tagsToParse is non-empty, Build splits it on commas; the
toolchain argument list then contains -tags (--tags for gopherjs) followed by
exactly those tags joined by commas, with "release" appended when the release
flag is set; and when the effective tag list is empty no tags argument is
passed at all. -/
theorem c5_tags_arguments (b : Builder) (goos : String) :
    (b.tagsToParse ≠ "" →
      ∃ pre post, b.buildArgs goos = pre ++
        [(if goos = "gopherjs" then "--tags" else "-tags"),
          joinComma (goSplit ',' b.tagsToParse ++
            (if b.release then ["release"] else []))] ++ post) ∧
    (b.effectiveTags = [] →
      b.buildArgs goos = ["build"] ++ ldflagsArgs goos b.release ++
        (if b.target ≠ "" then ["-o", b.target] else []) ++
        (if b.goPackage ≠ "" then [b.goPackage] else [])) := by
  constructor
  · intro h
    have htags : b.effectiveTags = goSplit ',' b.tagsToParse ++
        (if b.release then ["release"] else []) := by
      unfold Builder.effectiveTags Builder.parsedTags
      rw [if_pos h]
    have hne : b.effectiveTags ≠ [] := by
      rw [htags]
      intro hc
      exact goSplit_ne_nil ',' b.tagsToParse (List.append_eq_nil.mp hc).1
    refine ⟨["build"] ++ ldflagsArgs goos b.release ++
      (if b.target ≠ "" then ["-o", b.target] else []),
      (if b.goPackage ≠ "" then [b.goPackage] else []), ?_⟩
    unfold Builder.buildArgs tagsArgs
    rw [if_pos (List.length_pos.mpr hne), htags]
  · intro h
    unfold Builder.buildArgs tagsArgs
    rw [h]
    simp

/-- Concrete builder for the C5 witness. -/
def builderC5 : Builder :=
  { os := "", srcdir := "", target := "", goPackage := "",
    release := true, tags := [], tagsToParse := "foo,bar" }

/-- Closed-form witness for C5: building with tags "foo,bar" in release mode
passes the joined tag list "foo,bar,release" to the toolchain. -/
theorem c5_tags_arguments_witness :
    "foo,bar,release" ∈ builderC5.buildArgs "linux" := by
  obtain ⟨pre, post, hp⟩ := (c5_tags_arguments builderC5 "linux").1 (by decide)
  rw [hp]
  exact List.mem_append.mpr (Or.inl (List.mem_append.mpr (Or.inr (by decide))))

/-- C6: the effective target OS of build is: the --target/os flag when
non-empty; otherwise the GOOS environment variable when set; otherwise the
host runtime.GOOS. -/
theorem c6_effective_goos (b : Builder) (envGOOS : Option String)
    (rt v : String) :
    (b.os ≠ "" → b.effectiveGOOS envGOOS rt = b.os) ∧
    (b.os = "" → envGOOS = some v → b.effectiveGOOS envGOOS rt = v) ∧
    (b.os = "" → envGOOS = none → b.effectiveGOOS envGOOS rt = rt) := by
  unfold Builder.effectiveGOOS targetOS
  refine ⟨fun h => ?_, fun h he => ?_, fun h he => ?_⟩
  · rw [if_neg h]
  · rw [if_pos h, he]
  · rw [if_pos h, he]

/-- Concrete builder with a target flag for the C6 witness. -/
def builderC6a : Builder :=
  { os := "android", srcdir := "", target := "", goPackage := "",
    release := false, tags := [], tagsToParse := "" }

/-- Concrete builder without a target flag for the C6 witness. -/
def builderC6b : Builder :=
  { os := "", srcdir := "", target := "", goPackage := "",
    release := false, tags := [], tagsToParse := "" }

/-- Closed-form witness for C6: the flag wins over GOOS, GOOS wins over the
host OS, and the host OS is the final fallback. -/
theorem c6_effective_goos_witness :
    builderC6a.effectiveGOOS (some "js") "darwin" = "android" ∧
    builderC6b.effectiveGOOS (some "js") "darwin" = "js" ∧
    builderC6b.effectiveGOOS none "darwin" = "darwin" :=
  ⟨(c6_effective_goos builderC6a (some "js") "darwin" "js").1 (by decide),
    (c6_effective_goos builderC6b (some "js") "darwin" "js").2.1 rfl rfl,
    (c6_effective_goos builderC6b none "darwin" "js").2.2 rfl rfl⟩

/-- C7: when srcdir is non-empty and stat fails or names a non-directory,
Build returns an error and the toolchain runner is never invoked. -/
theorem c7_invalid_srcdir (b : Builder) (w : BuildEnv) (h1 : b.srcdir ≠ "")
    (h2 : w.statSrcdir = none ∨ w.statSrcdir = some false) :
    isErr (b.BuildRun w).1 = true ∧ (b.BuildRun w).2 = [] := by
  unfold Builder.BuildRun
  rw [if_pos h1]
  rcases h2 with h | h <;> rw [h] <;> exact ⟨rfl, rfl⟩

/-- Concrete builder with a srcdir for the C7 witness. -/
def builderC7 : Builder :=
  { os := "", srcdir := "/nonexistent", target := "", goPackage := "",
    release := false, tags := [], tagsToParse := "" }

/-- Concrete world where stat of srcdir fails, for the C7 witness. -/
def buildEnvC7 : BuildEnv :=
  { statSrcdir := none, envGOOS := none, runtimeGOOS := "linux",
    versionOutput := Except.ok "go version go1.17.3 linux/amd64",
    buildResult := Except.ok "", normalize := fun s => s,
    wasmConstraint := fun _ => true }

/-- Closed-form witness for C7 at the concrete builder and world. -/
theorem c7_invalid_srcdir_witness :
    isErr (builderC7.BuildRun buildEnvC7).1 = true ∧
      (builderC7.BuildRun buildEnvC7).2 = [] :=
  c7_invalid_srcdir builderC7 buildEnvC7 (by decide) (Or.inl rfl)

/-- C8: checkVersion accepts exactly the four-field go version outputs, and
the version string it feeds to the constraint is the third field with the
leading "go" and the final two characters removed; in particular
"go version go1.17.3 linux/amd64" is checked as "1.17"; any other output
shape is rejected with an invalid-output error. -/
theorem c8_checkVersion_behavior (output : String) (normalize : String → String)
    (cm : String → Bool) :
    (goVersionShape output →
      checkVersion output normalize cm =
        (if cm (normalize (checkedVersionString output)) then Except.ok ()
         else Except.error ("expected go version constraint got " ++
           normalize (checkedVersionString output)))) ∧
    (¬goVersionShape output →
      checkVersion output normalize cm =
        Except.error ("invalid output for go version: " ++ output)) ∧
    checkedVersionString "go version go1.17.3 linux/amd64" = "1.17" := by
  refine ⟨fun hs => ?_, fun hns => ?_, by decide⟩
  · obtain ⟨h1, h2, h3, h4, h5⟩ := hs
    unfold checkVersion
    rw [if_neg]
    · rfl
    · rintro (g | g | g | g | g)
      · exact g h1
      · exact g h2
      · exact g h3
      · omega
      · exact g h5
  · have hg : (goSplit ' ' output).length ≠ 4 ∨
        (goSplit ' ' output).getD 0 "" ≠ "go" ∨
        (goSplit ' ' output).getD 1 "" ≠ "version" ∨
        ((goSplit ' ' output).getD 2 "").length < 5 ∨
        (((goSplit ' ' output).getD 2 "").data.take 2).asString ≠ "go" := by
      by_contra hc
      push_neg at hc
      exact hns ⟨hc.1, hc.2.1, hc.2.2.1, hc.2.2.2.1, hc.2.2.2.2⟩
    unfold checkVersion
    rw [if_pos hg]

/-- Closed-form witness for C8: the example output is accepted when the
constraint matcher accepts "1.17". -/
theorem c8_checkVersion_behavior_witness :
    checkVersion "go version go1.17.3 linux/amd64" (fun s => s)
      (fun s => s == "1.17") = Except.ok () := by
  have h := (c8_checkVersion_behavior "go version go1.17.3 linux/amd64"
    (fun s => s) (fun s => s == "1.17")).1 (by decide)
  rw [h]
  rfl

/-! ## configurableTheme (test/theme.go) -/

/-- A text style map key (fyne.TextStyle). -/
structure TextStyle where
  bold : Bool
  italic : Bool
  monospace : Bool
  symbol : Bool
deriving DecidableEq, Repr

/-- configurableTheme: name-indexed maps of colors, fonts and sizes. Go map
lookups return the zero value for missing keys: nil for the interface-typed
colors and fonts (modelled as Option) and 0 for the float32 sizes. The color
and resource value types are parameters. -/
structure configurableTheme (Color Resource : Type) where
  colors : String → Option Color
  fonts : TextStyle → Option Resource
  name : String
  sizes : String → ℚ

/-- configurableTheme.Color: logs when the lookup is nil, then returns the
lookup unchanged. The returned pair is (value, whether an error was logged).
The theme variant argument is ignored, as in the source. -/
def configurableTheme.Color {γ ρ : Type} (t : configurableTheme γ ρ)
    (n : String) (_variant : Nat) : Option γ × Bool :=
  (t.colors n, (t.colors n).isNone)

/-- configurableTheme.Font: logs when the lookup is nil, then returns the
lookup unchanged. -/
def configurableTheme.Font {γ ρ : Type} (t : configurableTheme γ ρ)
    (style : TextStyle) : Option ρ × Bool :=
  (t.fonts style, (t.fonts style).isNone)

/-- configurableTheme.Size: logs when the lookup is 0, then returns the
lookup unchanged. -/
def configurableTheme.Size {γ ρ : Type} (t : configurableTheme γ ρ)
    (s : String) : ℚ × Bool :=
  (t.sizes s, decide (t.sizes s = 0))

/-- C9: an undefined color, font or size entry is returned as the zero value
of the map lookup (nil color, nil font resource, size 0) after logging an
error; no non-zero default is substituted and no panic occurs (the methods
are total). -/
theorem c9_undefined_theme_entries {γ ρ : Type} (t : configurableTheme γ ρ)
    (n : String) (style : TextStyle) (s : String) (variant : Nat)
    (hc : t.colors n = none) (hf : t.fonts style = none) (hs : t.sizes s = 0) :
    t.Color n variant = (none, true) ∧ t.Font style = (none, true) ∧
      t.Size s = (0, true) := by
  unfold configurableTheme.Color configurableTheme.Font configurableTheme.Size
  rw [hc, hf, hs]
  exact ⟨rfl, rfl, by simp⟩

/-- A concrete theme with empty maps, for the C9 witness. -/
def emptyTheme : configurableTheme Nat Nat :=
  { colors := fun _ => none, fonts := fun _ => none,
    name := "empty", sizes := fun _ => 0 }

/-- Closed-form witness for C9 at the empty theme. -/
theorem c9_undefined_theme_entries_witness :
    emptyTheme.Color "background" 0 = (none, true) ∧
      emptyTheme.Font ⟨false, false, false, false⟩ = (none, true) ∧
      emptyTheme.Size "text" = (0, true) :=
  c9_undefined_theme_entries emptyTheme "background"
    ⟨false, false, false, false⟩ "text" 0 rfl rfl rfl

/-! ## Localization helpers (lang/lang.go) -/

/-- The i18n.LocalizeConfig assembled by LocalizeKey / LocalizePluralKey:
message ID, fallback text ("Other"), optional plural count, template data. -/
structure LocalizeConfig (Data : Type) where
  id : String
  other : String
  pluralCount : Option Int
  templateData : Option Data
deriving Repr

/-- fallbackWithData: parse the fallback as a text template named after the
key and execute it with the data; when parsing fails, return the raw fallback
string unchanged. Template parsing and execution are oracles (execution
errors are discarded by the source, so execute is total). -/
def fallbackWithData {Tmpl Data : Type}
    (parse : String → String → Except String Tmpl)
    (execute : Tmpl → Option Data → String)
    (key fallback : String) (data : Option Data) : String :=
  match parse key fallback with
  | Except.error _ => fallback
  | Except.ok t => execute t data

/-- LocalizeKey: ask the localizer for the translation with the given ID; on
error, fall back to the template-applied fallback. The first data argument
(if any) is the template data. -/
def LocalizeKey {Tmpl Data : Type}
    (localizer : LocalizeConfig Data → Except String String)
    (parse : String → String → Except String Tmpl)
    (execute : Tmpl → Option Data → String)
    (key fallback : String) (data : List Data) : String :=
  let d0 := data.head?
  let cfg : LocalizeConfig Data :=
    { id := key, other := fallback, pluralCount := none, templateData := d0 }
  match localizer cfg with
  | Except.ok ret => ret
  | Except.error _ => fallbackWithData parse execute key fallback d0

/-- LocalizePluralKey: like LocalizeKey but with a plural count. -/
def LocalizePluralKey {Tmpl Data : Type}
    (localizer : LocalizeConfig Data → Except String String)
    (parse : String → String → Except String Tmpl)
    (execute : Tmpl → Option Data → String)
    (key fallback : String) (count : Int) (data : List Data) : String :=
  let d0 := data.head?
  let cfg : LocalizeConfig Data :=
    { id := key, other := fallback, pluralCount := some count,
      templateData := d0 }
  match localizer cfg with
  | Except.ok ret => ret
  | Except.error _ => fallbackWithData parse execute key fallback d0

/-- C10: when the localizer returns an error, LocalizeKey and
LocalizePluralKey return the fallback with the template data applied rather
than propagating the error; when the fallback cannot be parsed as a template,
the raw fallback is returned unchanged, and otherwise the parsed template is
executed with the first data argument. -/
theorem c10_fallback_on_error {Tmpl Data : Type}
    (localizer : LocalizeConfig Data → Except String String)
    (parse : String → String → Except String Tmpl)
    (execute : Tmpl → Option Data → String)
    (key fallback : String) (count : Int) (data : List Data) (d : Option Data) :
    (∀ e, localizer ⟨key, fallback, none, data.head?⟩ = Except.error e →
      LocalizeKey localizer parse execute key fallback data =
        fallbackWithData parse execute key fallback data.head?) ∧
    (∀ e, localizer ⟨key, fallback, some count, data.head?⟩ = Except.error e →
      LocalizePluralKey localizer parse execute key fallback count data =
        fallbackWithData parse execute key fallback data.head?) ∧
    (∀ e, parse key fallback = Except.error e →
      fallbackWithData parse execute key fallback d = fallback) ∧
    (∀ t, parse key fallback = Except.ok t →
      fallbackWithData parse execute key fallback d = execute t d) := by
  refine ⟨fun e he => ?_, fun e he => ?_, fun e he => ?_, fun t ht => ?_⟩
  · unfold LocalizeKey
    dsimp only
    rw [he]
  · unfold LocalizePluralKey
    dsimp only
    rw [he]
  · unfold fallbackWithData
    rw [he]
  · unfold fallbackWithData
    rw [ht]

/-- A localizer that always fails, for the C10 witness. -/
def failingLocalizer : LocalizeConfig String → Except String String :=
  fun _ => Except.error "message not found"

/-- A template parser that succeeds and keeps the source text, for the C10
witness. -/
def okParse : String → String → Except String String :=
  fun _ fallback => Except.ok fallback

/-- A template executor that returns the template text, for the C10
witness. -/
def idExecute : String → Option String → String := fun t _ => t

/-- Closed-form witness for C10: a failing localizer yields the fallback with
the (identity) template applied. -/
theorem c10_fallback_on_error_witness :
    LocalizeKey failingLocalizer okParse idExecute "greeting" "Hello" [] =
      "Hello" := by
  have h := (c10_fallback_on_error failingLocalizer okParse idExecute
    "greeting" "Hello" 2 [] none).1 "message not found" rfl
  rw [h]
  rfl

end FyneSpec
